import Mathlib

/-!
Verification development for the kenki-news collection scripts
(`news_collector.py`, `indicators_collector.py`).

Texts are shallowly embedded as `List Char` (`Str`).  Python string
operations (`strip`, `split`, `lower`, `replace`, and the three regex
substitutions of `clean_text`) are translated char-by-char; Python's
whitespace class is modelled by `Char.isWhitespace` (space, tab, CR, LF),
and `str.lower` by `Char.toLower`, which agree on every character these
scripts compare against.
-/

namespace Kenki

abbrev Str := List Char

/-- Python `s.strip()` on the left: drop leading whitespace. -/
def dropLeadWs (xs : Str) : Str := xs.dropWhile Char.isWhitespace

/-- Python `s.strip()`: drop leading and trailing whitespace. -/
def pyStrip (xs : Str) : Str := ((dropLeadWs xs).reverse.dropWhile Char.isWhitespace).reverse

/-- Python `s.lower()` (ASCII case folding; identity on the CJK text used here). -/
def pyLower (xs : Str) : Str := xs.map Char.toLower

/-- Python `s.split(sep)` for a one-character separator: no collapsing,
`"".split(",") = [""]`. -/
def splitOnChar (sep : Char) : Str → List Str
  | [] => [[]]
  | c :: rest =>
    if c = sep then [] :: splitOnChar sep rest
    else
      match splitOnChar sep rest with
      | s :: ss => (c :: s) :: ss
      | [] => [[c]]

/-- Python `sep.join(parts)` for a one-character separator. -/
def joinWith (sep : Char) : List Str → Str
  | [] => []
  | [x] => x
  | x :: y :: rest => x ++ sep :: joinWith sep (y :: rest)

/-- Python `sep.join(parts)` for a multi-character separator. -/
def joinWithSep (sep : Str) : List Str → Str
  | [] => []
  | [x] => x
  | x :: y :: rest => x ++ sep ++ joinWithSep sep (y :: rest)

/-- The scan step of `re.sub(r'<[^>]+>', '', text)`: at a `<`, the leftmost
match ends at the first following `>`, provided at least one character lies
between; fuel equals the remaining length, so it never runs out. -/
def removeTagsAux : Nat → Str → Str
  | 0, xs => xs
  | _ + 1, [] => []
  | fuel + 1, c :: rest =>
    if c = '<' then
      match rest.findIdx? (· = '>') with
      | some i => if 1 ≤ i then removeTagsAux fuel (rest.drop (i + 1)) else c :: removeTagsAux fuel rest
      | none => c :: removeTagsAux fuel rest
    else c :: removeTagsAux fuel rest

/-- `re.sub(r'<[^>]+>', '', text)` of `clean_text` (news_collector.py:39). -/
def removeTags (xs : Str) : Str := removeTagsAux xs.length xs

/-- Does the regex `https?://\S+` match starting exactly here?  It needs the
literal scheme prefix and at least one following non-whitespace character. -/
def urlMatchLen (xs : Str) : Option Nat :=
  if ("https://".toList).isPrefixOf xs then some 8
  else if ("http://".toList).isPrefixOf xs then some 7
  else none

/-- Drop a URL match: the scheme prefix plus the maximal run of
non-whitespace characters after it. -/
def dropUrlAt (k : Nat) (xs : Str) : Str := (xs.drop k).dropWhile (fun c => ¬ c.isWhitespace)

/-- The scan of `re.sub(r'https?://\S+', '', text)`; fuel equals the
remaining length. -/
def removeUrlsAux : Nat → Str → Str
  | 0, xs => xs
  | _ + 1, [] => []
  | fuel + 1, c :: rest =>
    match urlMatchLen (c :: rest) with
    | some k =>
      match (c :: rest).drop k with
      | [] => c :: removeUrlsAux fuel rest
      | d :: _ =>
        if d.isWhitespace then c :: removeUrlsAux fuel rest
        else removeUrlsAux fuel (dropUrlAt k (c :: rest))
    | none => c :: removeUrlsAux fuel rest

/-- `re.sub(r'https?://\S+', '', text)` of `clean_text` (news_collector.py:41). -/
def removeUrls (xs : Str) : Str := removeUrlsAux xs.length xs

/-- `re.sub(r'\s+', ' ', text)`: each maximal whitespace run becomes one
space.  The flag records whether the previous character was whitespace. -/
def collapseWsAux : Bool → Str → Str
  | _, [] => []
  | prevWs, c :: rest =>
    if c.isWhitespace then
      if prevWs then collapseWsAux true rest else ' ' :: collapseWsAux true rest
    else c :: collapseWsAux false rest

/-- `re.sub(r'\s+', ' ', text)` of `clean_text` (news_collector.py:43). -/
def collapseWs (xs : Str) : Str := collapseWsAux false xs

/-- `clean_text` (news_collector.py:34-44): strip HTML tags, raw URLs, and
collapse whitespace; empty (falsy) input short-circuits to `""`. -/
def clean_text (text : Str) : Str :=
  if text = [] then []
  else pyStrip (collapseWs (removeUrls (removeTags text)))

/-- The lowercased values `clean_multi_select` rejects outright
(news_collector.py:376). -/
def blockedVals : List Str := ["none".toList, "不明".toList, "other".toList, []]

/-- `clean_multi_select` (news_collector.py:374-379), returning the list of
tag names (the source wraps each name as `{"name": p}`; the wrapper carries
no further data, so the name list is the whole content). -/
def clean_multi_select (val : Str) : List Str :=
  if val = [] ∨ pyLower val ∈ blockedVals then []
  else
    (((splitOnChar ',' (val.map fun c => if c = '、' then ',' else c)).map pyStrip).filter
      (fun p => p ≠ []))

/-!
## Gemini full analysis — `analyze_article_with_gemini` (news_collector.py:226-301)

The external model call and `json.loads` are the oracle boundary:
`ModelResp` is the outcome of `model.generate_content`, `ParseOutcome` the
outcome of `json.loads` on a given string (`.jsonError` is
`json.JSONDecodeError`; `.otherError` covers a successful parse whose value
then crashes the field loop — e.g. valid JSON that is not an object — which
the source's generic `except Exception` turns into `None`).
-/

/-- A JSON field value as the scripts see it: a string or a list of
strings (the model sometimes returns lists; `save_to_notion` joins them). -/
inductive PVal where
  | str (v : Str)
  | list (vs : List Str)
deriving DecidableEq

/-- Python `str()` on a field value.  For lists this is the `repr`
rendering; it is modelled for quote-free elements, the only shape the
scripts ever feed it. -/
def PVal.pyStr : PVal → Str
  | .str v => v
  | .list vs =>
    '[' :: (joinWithSep [',', ' '] (vs.map fun v => '\x27' :: v ++ ['\x27'])) ++ [']']

/-- `"\n".join(x)` when the value is a list, identity on strings
(the `isinstance(x, list)` branches of `save_to_notion`). -/
def PVal.joinIfList : PVal → Str
  | .str v => v
  | .list vs => joinWith '\n' vs

/-- The parsed classification dict: every key the prompt requests may be
absent (`result.get` supplies defaults downstream). -/
structure GemResult where
  bullet_summary : Option PVal := none
  full_body : Option PVal := none
  lang : Option PVal := none
  brand : Option PVal := none
  segment : Option PVal := none
  region : Option PVal := none
deriving DecidableEq

/-- Outcome of `model.generate_content(prompt)`: the response text, or an
exception (caught by the final `except Exception` → `None`). -/
inductive ModelResp where
  | text (t : Str)
  | raises
deriving DecidableEq

/-- Outcome of `json.loads` on a string. -/
inductive ParseOutcome where
  | ok (r : GemResult)
  | jsonError
  | otherError
deriving DecidableEq

/-- `re.sub(r'^```[a-z]*\n?', '', raw_text)` (news_collector.py:277):
remove one leading code-fence marker, its lowercase language tag and one
optional newline. -/
def stripLeadingFence (xs : Str) : Str :=
  if ("```".toList).isPrefixOf xs then
    match (xs.drop 3).dropWhile Char.isLower with
    | '\n' :: r => r
    | r => r
  else xs

/-- `re.sub(r'\n?```$', '', raw_text)` (news_collector.py:278): remove one
trailing code-fence marker and one optional newline before it. -/
def stripTrailingFence (xs : Str) : Str :=
  if ("```".toList).isPrefixOf xs.reverse then
    match xs.reverse.drop 3 with
    | '\n' :: r => r.reverse
    | r => r.reverse
  else xs

/-- The field-cleaning loop (news_collector.py:283-285): `bullet_summary`
and `full_body`, when present, become `clean_text(str(value))`. -/
def cleanFields (r : GemResult) : GemResult :=
  { r with
    bullet_summary := r.bullet_summary.map fun v => .str (clean_text v.pyStr)
    full_body := r.full_body.map fun v => .str (clean_text v.pyStr) }

/-- The fixed URL-only fallback dict (news_collector.py:245-251). -/
def urlOnlyFallback : GemResult :=
  { bullet_summary := some (.str "（本文を取得できませんでした）".toList)
    full_body := some (.str [])
    brand := some (.str []), segment := some (.str []), region := some (.str []) }

/-- The JSON-parse-failure fallback dict (news_collector.py:292-298):
empty tags, the cleaned raw text (capped at 2000) as `full_body`. -/
def jsonFailFallback (rawText : Str) : GemResult :=
  { bullet_summary := some (.str [])
    full_body := some (.str ((clean_text rawText).take 2000))
    brand := some (.str []), segment := some (.str []), region := some (.str []) }

/-- `analyze_article_with_gemini` (news_collector.py:226-301), with the
model response and the JSON parser as oracles.  `articleSummary` is
`article_data["summary"]`, `pageText` the `get_page_text` result. -/
def analyze_article_with_gemini (parse : Str → ParseOutcome) (resp : ModelResp)
    (articleSummary : Str) (pageText : Str) : Option GemResult :=
  let rawInput0 := if pageText ≠ [] ∧ 200 ≤ pageText.length then pageText else articleSummary
  let rawInput := (clean_text rawInput0).take 5000
  if rawInput = [] then some urlOnlyFallback
  else
    match resp with
    | .raises => none
    | .text t =>
      let rawText := stripTrailingFence (stripLeadingFence (pyStrip t))
      match parse rawText with
      | .ok r => some (cleanFields r)
      | .jsonError => some (jsonFailFallback rawText)
      | .otherError => none

/-!
## Page-text extraction — `get_page_text` (news_collector.py:515-598)

The page after noise-tag removal is abstracted by the paragraph texts the
relevant `find` calls yield.  `Container.paras` holds, in document order,
the `p.get_text(" ", strip=True)` strings of the `<p>` descendants of that
container.  `selFinds` lists the `soup.find(attrs=selector)` outcome for
each of the nine main-content selectors in the source's order;
`mainFind` is `soup.find("main")`, evaluated in each loop iteration
(`soup.find(attrs=selector) or soup.find("main")` — Python `or` on
`Option`).  `allParas` is the whole page, `fullTextWords` the words of
`soup.get_text().split()`.
-/

/-- A found container, abstracted as its paragraph texts. -/
structure Container where
  paras : List Str
deriving DecidableEq

/-- The parsed, noise-stripped page as `get_page_text` queries it. -/
structure Page where
  article : Option Container
  selFinds : List (Option Container)
  mainFind : Option Container
  allParas : List Str
  fullTextWords : List Str

/-- `extract_paragraphs` (news_collector.py:553-561): keep paragraph texts
longer than 30 characters, join with blank lines. -/
def extract_paragraphs (c : Container) : Str :=
  joinWithSep ['\n', '\n'] (c.paras.filter fun t => 30 < t.length)

/-- Strategy 2 (news_collector.py:572-583): first selector (or `<main>`)
container whose extracted text exceeds 200 characters. -/
def strategyTwo (mainFind : Option Container) : List (Option Container) → Option Str
  | [] => none
  | o :: rest =>
    match o.orElse (fun _ => mainFind) with
    | some c =>
      let t := extract_paragraphs c
      if 200 < t.length then some t else strategyTwo mainFind rest
    | none => strategyTwo mainFind rest

/-- `get_page_text` (news_collector.py:515-598) after a successful fetch:
the four-tier extraction cascade.  (The HTTP wrapper returns `""` on a
non-200 status or an exception; no claim concerns that wrapper.) -/
def get_page_text (pg : Page) : Str :=
  let tier1 : Option Str :=
    match pg.article with
    | some a =>
      let t := extract_paragraphs a
      if 200 < t.length then some t else none
    | none => none
  match tier1 with
  | some t => t.take 10000
  | none =>
    match strategyTwo pg.mainFind pg.selFinds with
    | some t => t.take 10000
    | none =>
      let t := extract_paragraphs ⟨pg.allParas⟩
      if 200 < t.length then t.take 10000
      else (joinWith ' ' pg.fullTextWords).take 10000

/-!
## Deduplication — `is_duplicate` (news_collector.py:306-371)

Each of the three lookup methods is an oracle outcome.  A method that
executes its query returns early (empty result ⇒ `False`); a method whose
SDK surface is missing falls through silently, and a raised exception
falls through via the `except` arm.  The REST fallback returns the result
only on HTTP 200; any other status falls to the final `return False`.
-/

/-- Outcome of one SDK query method (`data_sources.query` or
`databases.query`). -/
inductive QueryOutcome where
  | unavailable
  | raises
  | returns (nonempty : Bool)
deriving DecidableEq

/-- Outcome of the direct REST fallback (`requests.post`). -/
inductive RestOutcome where
  | raises
  | status (code : Nat) (nonempty : Bool)
deriving DecidableEq

/-- The three method outcomes a single `is_duplicate(url)` call observes. -/
structure DedupCall where
  newSdk : QueryOutcome
  oldSdk : QueryOutcome
  rest : RestOutcome
deriving DecidableEq

/-- `is_duplicate` (news_collector.py:306-371).  `urlColPresent` is
whether `P_MAP["url"]` resolved to a property name. -/
def is_duplicate (urlColPresent : Bool) (c : DedupCall) : Bool :=
  if urlColPresent then
    match c.newSdk with
    | .returns ne => ne
    | _ =>
      match c.oldSdk with
      | .returns ne => ne
      | _ =>
        match c.rest with
        | .status code ne => if code = 200 then ne else false
        | .raises => false
  else false

/-!
## Sink writer — `save_to_notion` (news_collector.py:382-512)

### The retry loop (lines 487-512)

`notion.pages.create` is the oracle: per attempt and submitted property
set it succeeds, raises an error whose message names an unknown property
(the `re.search(r"Property ['\"](.+?)['\"] is not a property", ...)` match),
or raises any other exception — a rate-limit response included, since the
source does not distinguish it.  Properties are identified by name
(Python dict keys are unique; `props.pop(bad_prop, None)` is `List.erase`).
-/

/-- Outcome of one `notion.pages.create` call. -/
inductive SinkResp where
  | ok
  | unknownProp (name : Str)
  | err
deriving DecidableEq

/-- What a `save_to_notion` run did: result, the `time.sleep` durations in
order, every property set submitted to the sink in order, and how many
create calls succeeded. -/
structure SaveResult where
  ok : Bool
  sleeps : List Nat
  submitted : List (List Str)
  persisted : Nat
deriving DecidableEq

/-- `max_retries` (news_collector.py:488). -/
def max_retries : Nat := 3

/-- The `for attempt in range(max_retries)` loop of `save_to_notion`
(news_collector.py:489-512): `remaining` attempts are left, `attempt` is
the current index.  An unknown-property error removes that property and
retries without sleeping; any other error sleeps 5 seconds unless this was
the last attempt; falling off the loop returns `False`. -/
def saveLoop (sink : Nat → List Str → SinkResp) :
    Nat → Nat → List Str → List Nat → List (List Str) → SaveResult
  | 0, _, _, sleeps, submitted => ⟨false, sleeps, submitted, 0⟩
  | remaining + 1, attempt, props, sleeps, submitted =>
    match sink attempt props with
    | .ok => ⟨true, sleeps, submitted ++ [props], 1⟩
    | .unknownProp p =>
      saveLoop sink remaining (attempt + 1) (props.erase p) sleeps (submitted ++ [props])
    | .err =>
      if attempt < max_retries - 1 then
        saveLoop sink remaining (attempt + 1) props (sleeps ++ [5]) (submitted ++ [props])
      else ⟨false, sleeps, submitted ++ [props], 0⟩

/-- The retry phase of `save_to_notion` on an already-built property set. -/
def save_to_notion (sink : Nat → List Str → SinkResp) (props : List Str) : SaveResult :=
  saveLoop sink max_retries 0 props [] []

/-!
### The page body (children) construction (lines 428-485)
-/

/-- A Notion block as built by `save_to_notion`: a heading, a bulleted
item, or a paragraph whose rich-text spans carry text and an optional
link URL. -/
inductive Block where
  | heading2 (text : Str)
  | bullet (text : Str)
  | para (rich : List (Str × Option Str))
deriving DecidableEq

/-- The candidate fields `save_to_notion` reads (`article_data`). -/
structure ArticleData where
  title : Str
  link : Str
  summary : Str
  date : Int
deriving DecidableEq

/-- Python `b.strip("- •*")`: strip any of `-`, space, `•`, `*` from both
ends. -/
def stripBulletChars (xs : Str) : Str :=
  let inSet := fun c => c = '-' ∨ c = ' ' ∨ c = '•' ∨ c = '*'
  ((xs.dropWhile inSet).reverse.dropWhile inSet).reverse

/-- The 【要約】 section (news_collector.py:431-449): heading plus at most
three cleaned bullet items. -/
def bulletSection (bulletsVal : PVal) : List Block :=
  let bulletsRaw := pyStrip bulletsVal.joinIfList
  if bulletsRaw = [] then []
  else
    let bulletList :=
      ((splitOnChar '\n' bulletsRaw).filter fun b => pyStrip b ≠ []).map stripBulletChars
    Block.heading2 "【要約】".toList ::
      ((bulletList.take 3).filterMap fun b =>
        let b' := (clean_text b).take 2000
        if b' = [] then none else some (.bullet b'))

/-- The 【本文引用/翻訳】 section (news_collector.py:451-470): heading plus
one paragraph; a body over 2000 characters is cut to its first 1950
characters plus `...`. -/
def bodySection (bodyText : Str) : List Block :=
  if bodyText = [] then []
  else
    let display := if 2000 < bodyText.length then bodyText.take 1950 ++ "...".toList else bodyText
    [Block.heading2 "【本文引用/翻訳】".toList, Block.para [(display, none)]]

/-- The trailing source-link paragraph (news_collector.py:472-485). -/
def linkSection (bodyText : Str) (article : ArticleData) : Block :=
  let label :=
    if bodyText ≠ [] ∧ 2000 < bodyText.length then "続きを読む（Read more）→ ".toList
    else "ソース元: ".toList
  .para [(label, none), (article.title.take 50, some article.link)]

/-- The cleaned page body `save_to_notion` derives from the analysis
result (news_collector.py:452-455). -/
def cleanedBody (result : GemResult) : Str :=
  clean_text (pyStrip (result.full_body.getD (.str [])).joinIfList)

/-- The `children` list of `save_to_notion` (news_collector.py:428-485). -/
def buildChildren (result : GemResult) (article : ArticleData) : List Block :=
  let bodyText := cleanedBody result
  bulletSection (result.bullet_summary.getD (.str []))
    ++ bodySection bodyText ++ [linkSection bodyText article]

/-!
## Bulk spreadsheet writer — `write_bulk` (indicators_collector.py:470-523)

`sheet.col_values(1)` and `sheet.append_rows` are oracles.  Only
`gspread.exceptions.APIError` is caught; its message either contains
`"429"` (rate limit: sleep `60 * (attempt + 1)` seconds and retry) or not
(log and return).  Any other exception from `append_rows` propagates.
The post-append date sort (lines 511-523) touches no claim and is not
modelled beyond noting that it runs only after a successful append.
-/

/-- Outcome of one `sheet.append_rows` call. -/
inductive AppendResp where
  | ok
  | api429
  | apiOther
  | raisesNonApi
deriving DecidableEq

/-- How a `write_bulk` call ended. -/
inductive WbOutcome where
  | noNew
  | appended
  | errOther
  | gaveUp
  | raised
deriving DecidableEq

/-- Result of `write_bulk`: the ending and the `time.sleep` durations. -/
structure WbResult where
  outcome : WbOutcome
  sleeps : List Nat
deriving DecidableEq

/-- The `for attempt in range(3)` retry loop of `write_bulk`
(indicators_collector.py:494-509); the `for`-`else` arm yields `gaveUp`. -/
def wbLoop (resp : Nat → AppendResp) : Nat → Nat → List Nat → WbResult
  | 0, _, sleeps => ⟨.gaveUp, sleeps⟩
  | remaining + 1, attempt, sleeps =>
    match resp attempt with
    | .ok => ⟨.appended, sleeps⟩
    | .api429 => wbLoop resp remaining (attempt + 1) (sleeps ++ [60 * (attempt + 1)])
    | .apiOther => ⟨.errOther, sleeps⟩
    | .raisesNonApi => ⟨.raised, sleeps⟩

/-- `write_bulk` (indicators_collector.py:470-509): fetch the existing
date column once (a raised fetch degrades to the empty set), keep only
rows whose date is unseen, then append them in one call under the retry
loop.  `α` is the opaque cell-value type. -/
def write_bulk {α : Type} (colFetch : Option (List Str)) (resp : Nat → AppendResp)
    (rows : List (Str × α)) : WbResult :=
  let existing := colFetch.getD []
  let newRows := rows.filter fun r => r.1 ∉ existing
  if newRows.isEmpty then ⟨.noNew, []⟩ else wbLoop resp 3 0 []

/-!
## Pipeline driver — the per-entry loop of `main` (news_collector.py:626-685)

External collaborators are an `Env` of oracles: the three dedup method
outcomes per queried URL, the relevance verdict (the internals of
`analyze_article_relevance` decide no claim and are abstracted to the
boolean it produces), the fetched page text per URL, the full analysis
outcome, and whether `save_to_notion` succeeded.  The trace records, in
program order, every external interaction of one candidate.
`published` is the `published_parsed` feed field as a UTC timestamp in
seconds; `datetime.isoformat` rendering is abstracted to the timestamp
itself.  `time.sleep` calls change no data and are not traced.
-/

/-- One external interaction of the per-candidate pipeline. -/
inductive Action where
  | dedupQuery (link : Str)
  | relevanceCheck
  | pageFetch (link : Str)
  | classify
  | sinkWrite
deriving DecidableEq

/-- A raw feed entry as `main` reads it (`getattr`/`get` with defaults). -/
structure Entry where
  title : Option Str
  link : Option Str
  summary : Option Str
  description : Option Str
  published : Option Int
deriving DecidableEq

/-- The external world of one run. -/
structure Env where
  urlColPresent : Bool
  dedup : Str → DedupCall
  relevant : ArticleData → Bool
  pageText : Str → Str
  classifyResult : ArticleData → Str → Option GemResult
  writeOk : GemResult → ArticleData → Bool

/-- What processing one entry produced: the interaction trace, whether a
record was written (`save_to_notion` returned `True`), and the Published
Date assigned to the candidate (`none` if it was skipped before the
article dict was built). -/
structure StepResult where
  trace : List Action
  wrote : Bool
  date : Option Int
deriving DecidableEq

/-- Seconds in the 24-hour recency window (`timedelta(hours=24)`). -/
def daySeconds : Int := 86400

/-- The dedup → relevance → fetch → analysis → save stages of one entry
loop iteration (news_collector.py:646-684), once the candidate has passed
the empty-title/link check and the 24-hour filter; `d` is the Published
Date timestamp assigned to it. -/
def processEntryBody (env : Env) (e : Entry) (d : Int) : StepResult :=
  let title := pyStrip (e.title.getD [])
  let link := pyStrip (e.link.getD [])
  let data : ArticleData :=
    { title := title, link := link
      summary := clean_text (e.summary.getD (e.description.getD [])), date := d }
  if is_duplicate env.urlColPresent (env.dedup link) then
    ⟨[.dedupQuery link], false, some d⟩
  else if ¬ env.relevant data then
    ⟨[.dedupQuery link, .relevanceCheck], false, some d⟩
  else
    let ptext := env.pageText link
    match env.classifyResult data ptext with
    | none =>
      ⟨[.dedupQuery link, .relevanceCheck, .pageFetch link, .classify], false, some d⟩
    | some r =>
      ⟨[.dedupQuery link, .relevanceCheck, .pageFetch link, .classify, .sinkWrite],
        env.writeOk r data, some d⟩

/-- One iteration of the entry loop (news_collector.py:626-685): empty
title/link skip, 24-hour filter, then the staged pipeline. -/
def processEntry (env : Env) (now : Int) (e : Entry) : StepResult :=
  let title := pyStrip (e.title.getD [])
  let link := pyStrip (e.link.getD [])
  if title = [] ∨ link = [] then ⟨[], false, none⟩
  else
    match e.published with
    | some t =>
      if t < now - daySeconds then ⟨[], false, none⟩ else processEntryBody env e t
    | none => processEntryBody env e now

/-- The entry loop over one feed with the per-run quota
(`processed_count` / `total_limit`, news_collector.py:604-627): combined
trace and final saved count. -/
def runEntries (env : Env) (now : Int) (limit : Nat) :
    List Entry → Nat → List Action × Nat
  | [], count => ([], count)
  | e :: rest, count =>
    if limit ≤ count then ([], count)
    else
      let r := processEntry env now e
      let (tr, c) := runEntries env now limit rest (count + (if r.wrote then 1 else 0))
      (r.trace ++ tr, c)

/-- How many destination-store dedup lookups a trace contains. -/
def countDedupQueries (tr : List Action) : Nat :=
  tr.countP fun a => match a with | .dedupQuery _ => true | _ => false

/-!
## Sample data for witnesses and counterexamples
-/

/-- A dedup call whose first method answers: no match. -/
def dedupFresh : DedupCall := ⟨.returns false, .unavailable, .raises⟩

/-- A dedup call whose first method answers: match found. -/
def dedupDup : DedupCall := ⟨.returns true, .unavailable, .raises⟩

/-- A dedup call in which all three methods raise. -/
def dedupAllFail : DedupCall := ⟨.raises, .raises, .raises⟩

/-- A benign environment with a chosen dedup oracle: everything relevant,
analysis succeeds, writes succeed. -/
def baseEnv (dd : Str → DedupCall) : Env :=
  { urlColPresent := true, dedup := dd, relevant := fun _ => true,
    pageText := fun _ => [], classifyResult := fun _ _ => some {},
    writeOk := fun _ _ => true }

/-- A fresh feed entry with no parsed publication time. -/
def entryA : Entry :=
  { title := some "a".toList, link := some "l1".toList,
    summary := none, description := none, published := none }

/-- A second fresh entry with a distinct link. -/
def entryB : Entry :=
  { title := some "b".toList, link := some "l2".toList,
    summary := none, description := none, published := none }

/-- An entry published at timestamp 0 (stale for any recent `now`). -/
def entryOld : Entry :=
  { title := some "c".toList, link := some "l3".toList,
    summary := none, description := none, published := some 0 }

/-- The texts of the single-span paragraph blocks of a page body: exactly
the body paragraphs `save_to_notion` builds (the source-link paragraph has
two spans, headings and bullets are other block kinds). -/
def singleParaTexts (blocks : List Block) : List Str :=
  blocks.filterMap fun b => match b with | .para [(t, none)] => some t | _ => none

/-- A 2001-character body: one over the destination's per-block limit. -/
def bigBody : Str := List.replicate 2001 'a'

/-- A minimal article record. -/
def artSample : ArticleData := ⟨"T".toList, "L".toList, [], 0⟩

/-- A classification result whose body exceeds the per-block limit. -/
def resBig : GemResult := { full_body := some (.str bigBody) }

/-- A model response wrapping `s` in code fences with language tag
`lang`, exactly as scenario C describes. -/
def fenceWrap (lang s : Str) : Str :=
  "```".toList ++ lang ++ '\n' :: s ++ '\n' :: "```".toList

/-!
## Shared helper lemmas
-/

theorem dropWhile_of_head {α : Type} (p : α → Bool) (l : List α) (c : α)
    (h : l.head? = some c) (hc : p c = false) : l.dropWhile p = l := by
  cases l with
  | nil => rfl
  | cons a rest =>
    simp only [List.head?_cons, Option.some.injEq] at h
    subst h
    simp [List.dropWhile_cons, hc]

theorem pyStrip_noop (xs : Str) (c d : Char) (h1 : xs.head? = some c)
    (h2 : c.isWhitespace = false) (h3 : xs.getLast? = some d)
    (h4 : d.isWhitespace = false) : pyStrip xs = xs := by
  unfold pyStrip dropLeadWs
  rw [dropWhile_of_head _ _ _ h1 h2,
    dropWhile_of_head _ _ _ (by rw [List.head?_reverse]; exact h3) h4,
    List.reverse_reverse]

/-!
## C1 — duplicate links short-circuit the whole pipeline
-/

/-- C1: for every candidate whose link `is_duplicate` reports as already
present, the driver performs no relevance check, no content fetch, no
classification and no write: the candidate contributes zero records and
the classifier is never invoked. -/
theorem duplicate_short_circuits (env : Env) (now : Int) (e : Entry)
    (hdup : is_duplicate env.urlColPresent (env.dedup (pyStrip (e.link.getD []))) = true) :
    (processEntry env now e).wrote = false ∧
    Action.relevanceCheck ∉ (processEntry env now e).trace ∧
    (∀ s, Action.pageFetch s ∉ (processEntry env now e).trace) ∧
    Action.classify ∉ (processEntry env now e).trace ∧
    Action.sinkWrite ∉ (processEntry env now e).trace := by
  unfold processEntry processEntryBody
  by_cases h1 : pyStrip (e.title.getD []) = [] ∨ pyStrip (e.link.getD []) = []
  · simp [h1]
  · cases hp : e.published with
    | none => simp [h1, hdup]
    | some t =>
      by_cases h2 : t < now - daySeconds
      · simp [h1, h2]
      · simp [h1, h2, hdup]

/-- Witness for C1 at a concrete duplicate entry. -/
theorem duplicate_short_circuits_witness :
    (processEntry (baseEnv fun _ => dedupDup) 0 entryA).wrote = false ∧
    Action.relevanceCheck ∉ (processEntry (baseEnv fun _ => dedupDup) 0 entryA).trace ∧
    (∀ s, Action.pageFetch s ∉ (processEntry (baseEnv fun _ => dedupDup) 0 entryA).trace) ∧
    Action.classify ∉ (processEntry (baseEnv fun _ => dedupDup) 0 entryA).trace ∧
    Action.sinkWrite ∉ (processEntry (baseEnv fun _ => dedupDup) 0 entryA).trace :=
  duplicate_short_circuits (baseEnv fun _ => dedupDup) 0 entryA (by decide)

/-!
## C9 — deduplication fails open
-/

/-- C9: if the new-SDK query raises, the old-SDK query raises, and the
REST fallback raises or returns a non-200 status, `is_duplicate` returns
`False`; a candidate in that situation proceeds through the pipeline and
is written (shown on a concrete run), even though the store was never
successfully consulted. -/
theorem dedup_fails_open :
    (∀ (u : Bool) (c : DedupCall), c.newSdk = .raises → c.oldSdk = .raises →
      (c.rest = .raises ∨ ∃ code ne, c.rest = .status code ne ∧ code ≠ 200) →
      is_duplicate u c = false) ∧
    ((processEntry (baseEnv fun _ => dedupAllFail) 0 entryA).wrote = true ∧
      Action.sinkWrite ∈ (processEntry (baseEnv fun _ => dedupAllFail) 0 entryA).trace) := by
  constructor
  · intro u c h1 h2 h3
    obtain ⟨n1, n2, n3⟩ := c
    cases h1; cases h2
    unfold is_duplicate
    rcases h3 with h | ⟨code, ne, h, hc⟩ <;> cases h <;> simp_all [is_duplicate]
  · constructor <;> decide

/-- Witness for C9: all three methods raising yields `False`. -/
theorem dedup_fails_open_witness : is_duplicate true dedupAllFail = false :=
  dedup_fails_open.1 true dedupAllFail rfl rfl (Or.inl rfl)

/-!
## C10 — the 24-hour recency filter
-/

/-- C10: an entry whose parsed publication time is older than `now` minus
24 hours is skipped before any dedup query, classification or write; an
entry with no parseable publication time is dated `now` and always passes
the recency filter (its processing reaches the dedup stage). -/
theorem recency_filter (env : Env) (now : Int) (e : Entry) :
    (∀ t, e.published = some t → t < now - daySeconds →
      processEntry env now e = ⟨[], false, none⟩) ∧
    (e.published = none → pyStrip (e.title.getD []) ≠ [] → pyStrip (e.link.getD []) ≠ [] →
      (processEntry env now e).date = some now ∧
      (processEntry env now e).trace.head? =
        some (.dedupQuery (pyStrip (e.link.getD [])))) := by
  constructor
  · intro t ht hlt
    unfold processEntry
    by_cases h1 : pyStrip (e.title.getD []) = [] ∨ pyStrip (e.link.getD []) = []
    · simp [h1]
    · simp [h1, ht, hlt]
  · intro hnone htitle hlink
    unfold processEntry processEntryBody
    have h1 : ¬ (pyStrip (e.title.getD []) = [] ∨ pyStrip (e.link.getD []) = []) := by
      tauto
    by_cases hd : is_duplicate env.urlColPresent (env.dedup (pyStrip (e.link.getD []))) = true
    · simp [h1, hnone, hd]
    · by_cases hr :
        env.relevant
          { title := pyStrip (e.title.getD []), link := pyStrip (e.link.getD []),
            summary := clean_text (e.summary.getD (e.description.getD [])), date := now } = true
      · cases hc :
          env.classifyResult
            { title := pyStrip (e.title.getD []), link := pyStrip (e.link.getD []),
              summary := clean_text (e.summary.getD (e.description.getD [])), date := now }
            (env.pageText (pyStrip (e.link.getD []))) <;>
          simp [h1, hnone, hd, hr, hc]
      · simp [h1, hnone, hd, hr]

/-- Witness for C10: a stale entry is dropped whole; a dateless entry is
dated `now` and reaches the dedup query. -/
theorem recency_filter_witness :
    processEntry (baseEnv fun _ => dedupFresh) 100000000 entryOld = ⟨[], false, none⟩ ∧
    ((processEntry (baseEnv fun _ => dedupFresh) 100000000 entryA).date = some 100000000 ∧
      (processEntry (baseEnv fun _ => dedupFresh) 100000000 entryA).trace.head? =
        some (.dedupQuery (pyStrip (entryA.link.getD [])))) :=
  ⟨(recency_filter (baseEnv fun _ => dedupFresh) 100000000 entryOld).1 0 rfl (by decide),
    (recency_filter (baseEnv fun _ => dedupFresh) 100000000 entryA).2 rfl (by decide) (by decide)⟩

/-!
## Sink-writer retry lemmas
-/

theorem saveLoop_submitted_le (sink : Nat → List Str → SinkResp) :
    ∀ (remaining attempt : Nat) (props : List Str) (sleeps : List Nat)
      (submitted : List (List Str)),
      (saveLoop sink remaining attempt props sleeps submitted).submitted.length ≤
        submitted.length + remaining := by
  intro remaining
  induction remaining with
  | zero => intro attempt props sleeps submitted; simp [saveLoop]
  | succ r ih =>
    intro attempt props sleeps submitted
    unfold saveLoop
    cases sink attempt props with
    | ok => simp
    | unknownProp p =>
      have := ih (attempt + 1) (props.erase p) sleeps (submitted ++ [props])
      simp only [List.length_append, List.length_singleton] at this ⊢
      omega
    | err =>
      by_cases h : attempt < max_retries - 1
      · simp only [if_pos h]
        have := ih (attempt + 1) props (sleeps ++ [5]) (submitted ++ [props])
        simp only [List.length_append, List.length_singleton] at this ⊢
        omega
      · simp only [if_neg h]
        simp

theorem saveLoop_persisted (sink : Nat → List Str → SinkResp) :
    ∀ (remaining attempt : Nat) (props : List Str) (sleeps : List Nat)
      (submitted : List (List Str)),
      ((saveLoop sink remaining attempt props sleeps submitted).ok = true →
        (saveLoop sink remaining attempt props sleeps submitted).persisted = 1) ∧
      ((saveLoop sink remaining attempt props sleeps submitted).ok = false →
        (saveLoop sink remaining attempt props sleeps submitted).persisted = 0) := by
  intro remaining
  induction remaining with
  | zero => intro attempt props sleeps submitted; simp [saveLoop]
  | succ r ih =>
    intro attempt props sleeps submitted
    unfold saveLoop
    cases sink attempt props with
    | ok => simp
    | unknownProp p => exact ih (attempt + 1) (props.erase p) sleeps (submitted ++ [props])
    | err =>
      by_cases h : attempt < max_retries - 1
      · simp only [if_pos h]
        exact ih (attempt + 1) props (sleeps ++ [5]) (submitted ++ [props])
      · simp [if_neg h]

/-!
## C6 — unknown-property schema drift is recovered by dropping the property
-/

/-- C6: the writer invokes the sink at most `max_retries = 3` times in
total; and whenever the sink rejects the first attempt naming one unknown
property and accepts the same set with exactly that property removed, the
writer succeeds on the retry: two attempts, the second submitting
`props.erase p`, no sleeping, one persisted record. -/
theorem unknown_property_retry :
    (∀ (sink : Nat → List Str → SinkResp) (props : List Str),
      (save_to_notion sink props).submitted.length ≤ max_retries) ∧
    (∀ (sink : Nat → List Str → SinkResp) (props : List Str) (p : Str),
      sink 0 props = .unknownProp p → sink 1 (props.erase p) = .ok →
      save_to_notion sink props = ⟨true, [], [props, props.erase p], 1⟩) := by
  constructor
  · intro sink props
    simpa using saveLoop_submitted_le sink max_retries 0 props [] []
  · intro sink props p h0 h1
    simp [save_to_notion, saveLoop, max_retries, h0, h1]

/-- Witness for C6: a sink that rejects property `Foo` once, then accepts. -/
theorem unknown_property_retry_witness :
    save_to_notion
        (fun n _ => if n = 0 then .unknownProp "Foo".toList else .ok)
        ["Title".toList, "Foo".toList] =
      ⟨true, [], [["Title".toList, "Foo".toList], ["Title".toList]], 1⟩ := by
  have h := unknown_property_retry.2
    (fun n _ => if n = 0 then .unknownProp "Foo".toList else .ok)
    ["Title".toList, "Foo".toList] "Foo".toList rfl rfl
  rw [h]
  decide

/-!
## C3 — rate-limit backoff (corrected)

The spec ascribes strictly increasing `60s × attempt` backoff with
per-record failure to the sink writer.  `save_to_notion` does not
distinguish a rate-limit error: every non-schema error sleeps a constant
5 seconds between attempts.  The increasing `60 × (attempt + 1)` backoff
lives in the bulk spreadsheet writer `write_bulk`, which writes a batch,
not a single record.
-/

/-- C3 counterexample: a sink that always reports a rate-limit condition
(an error the source cannot tell from any other) makes `save_to_notion`
sleep `[5, 5]` — not strictly increasing, nowhere near 60 s × attempt —
before returning failure. -/
theorem rate_limit_backoff_cex :
    (save_to_notion (fun _ _ => .err) ["Title".toList]).sleeps = [5, 5] ∧
    ¬ List.Chain' (· < ·) (save_to_notion (fun _ _ => .err) ["Title".toList]).sleeps ∧
    (save_to_notion (fun _ _ => .err) ["Title".toList]).ok = false := by
  refine ⟨by decide, ?_, by decide⟩
  intro h
  have : (save_to_notion (fun _ _ => .err) ["Title".toList]).sleeps = [5, 5] := by decide
  rw [this] at h
  simp [List.chain'_cons] at h

/-- C3 amended: on persistent errors (rate limits included) `save_to_notion`
retries with a constant 5-second delay, three attempts in total, then
returns failure for that record without raising; `write_bulk` is the
writer with strictly increasing `60 × (attempt + 1)` backoff — on
persistent 429 responses it sleeps 60, 120, 180 seconds over its three
attempts and then gives up without raising. -/
theorem rate_limit_backoff_amended :
    (∀ (sink : Nat → List Str → SinkResp) (props : List Str),
      (∀ n ps, sink n ps = .err) →
      save_to_notion sink props = ⟨false, [5, 5], [props, props, props], 0⟩) ∧
    (∀ {α : Type} (colFetch : Option (List Str)) (resp : Nat → AppendResp)
      (rows : List (Str × α)),
      (∀ n, resp n = .api429) →
      (rows.filter fun r => r.1 ∉ colFetch.getD []).isEmpty = false →
      write_bulk colFetch resp rows = ⟨.gaveUp, [60, 120, 180]⟩ ∧
        List.Chain' (· < ·) [60, 120, 180]) := by
  constructor
  · intro sink props h
    simp [save_to_notion, saveLoop, max_retries, h]
  · intro α colFetch resp rows h hne
    constructor
    · have hloop : wbLoop resp 3 0 [] = ⟨.gaveUp, [60, 120, 180]⟩ := by
        simp [wbLoop, h]
      simp only [write_bulk, hne, Bool.false_eq_true, if_false]
      exact hloop
    · simp [List.chain'_cons]

/-- Witness for C3 (amended): the constant-delay and the increasing-delay
writers at concrete inputs. -/
theorem rate_limit_backoff_amended_witness :
    save_to_notion (fun _ _ => .err) ["Title".toList] =
      ⟨false, [5, 5], [["Title".toList], ["Title".toList], ["Title".toList]], 0⟩ ∧
    write_bulk (some ["2024-01-01".toList]) (fun _ => .api429)
        [("2024-02-01".toList, (1 : Nat))] = ⟨.gaveUp, [60, 120, 180]⟩ :=
  ⟨rate_limit_backoff_amended.1 (fun _ _ => .err) ["Title".toList] (fun _ _ => rfl),
    (rate_limit_backoff_amended.2 (some ["2024-01-01".toList]) (fun _ => .api429)
      [("2024-02-01".toList, (1 : Nat))] (fun _ => rfl) (by decide)).1⟩

/-!
## Plain-text identity lemmas

`clean_text` leaves a text alone when nothing in it can match any of the
three substitutions: no `<` (no tag), no `h` (no `http` scheme), no
whitespace.  These let long concrete bodies be reasoned about without
kernel evaluation.
-/

theorem dropWhile_eq_self_of_all {α : Type} (p : α → Bool) (l : List α)
    (h : ∀ c ∈ l, p c = false) : l.dropWhile p = l := by
  cases l with
  | nil => rfl
  | cons a rest => simp [List.dropWhile_cons, h a (by simp)]

theorem pyStrip_of_no_ws (xs : Str) (h : ∀ c ∈ xs, c.isWhitespace = false) :
    pyStrip xs = xs := by
  unfold pyStrip dropLeadWs
  rw [dropWhile_eq_self_of_all _ _ h,
    dropWhile_eq_self_of_all _ _ (fun c hc => h c (by simpa using hc)),
    List.reverse_reverse]

theorem removeTagsAux_of_no_lt :
    ∀ (fuel : Nat) (xs : Str), (∀ c ∈ xs, c ≠ '<') → removeTagsAux fuel xs = xs := by
  intro fuel
  induction fuel with
  | zero => intro xs _; rfl
  | succ f ih =>
    intro xs h
    cases xs with
    | nil => rfl
    | cons c rest =>
      have hc : ¬ c = '<' := h c (by simp)
      simp only [removeTagsAux, if_neg hc]
      rw [ih rest fun d hd => h d (by simp [hd])]

theorem isPrefixOf_eq_false_of_head_ne (l1 l2 : Str) (a b : Char)
    (h1 : l1.head? = some a) (h2 : l2.head? = some b) (hne : a ≠ b) :
    l1.isPrefixOf l2 = false := by
  cases l1 with
  | nil => simp at h1
  | cons x xs =>
    cases l2 with
    | nil => simp at h2
    | cons y ys =>
      simp only [List.head?_cons, Option.some.injEq] at h1 h2
      subst h1; subst h2
      simp [List.isPrefixOf, hne]

theorem urlMatchLen_eq_none (xs : Str) (h : ∀ c ∈ xs, c ≠ 'h') :
    urlMatchLen xs = none := by
  cases xs with
  | nil => decide
  | cons c rest =>
    have hc : c ≠ 'h' := h c (by simp)
    unfold urlMatchLen
    rw [isPrefixOf_eq_false_of_head_ne _ _ 'h' c (by decide) (by simp)
        (fun e => hc e.symm),
      isPrefixOf_eq_false_of_head_ne _ _ 'h' c (by decide) (by simp)
        (fun e => hc e.symm)]
    simp

theorem removeUrlsAux_of_no_h :
    ∀ (fuel : Nat) (xs : Str), (∀ c ∈ xs, c ≠ 'h') → removeUrlsAux fuel xs = xs := by
  intro fuel
  induction fuel with
  | zero => intro xs _; rfl
  | succ f ih =>
    intro xs h
    cases xs with
    | nil => rfl
    | cons c rest =>
      simp only [removeUrlsAux, urlMatchLen_eq_none (c :: rest) h]
      rw [ih rest fun d hd => h d (by simp [hd])]

theorem collapseWsAux_of_no_ws :
    ∀ (xs : Str) (b : Bool), (∀ c ∈ xs, c.isWhitespace = false) →
      collapseWsAux b xs = xs := by
  intro xs
  induction xs with
  | nil => intro b _; rfl
  | cons c rest ih =>
    intro b h
    have hc : c.isWhitespace = false := h c (by simp)
    simp only [collapseWsAux, hc, Bool.false_eq_true, if_false]
    rw [ih false fun d hd => h d (by simp [hd])]

theorem clean_text_plain (xs : Str)
    (h : ∀ c ∈ xs, c ≠ '<' ∧ c ≠ 'h' ∧ c.isWhitespace = false) :
    clean_text xs = xs := by
  by_cases he : xs = []
  · subst he; rfl
  · unfold clean_text removeTags removeUrls collapseWs
    rw [if_neg he, removeTagsAux_of_no_lt _ _ (fun c hc => (h c hc).1),
      removeUrlsAux_of_no_h _ _ (fun c hc => (h c hc).2.1),
      collapseWsAux_of_no_ws _ _ (fun c hc => (h c hc).2.2),
      pyStrip_of_no_ws _ (fun c hc => (h c hc).2.2)]

/-- The oversized sample body passes through cleaning untouched. -/
theorem cleanedBody_resBig : cleanedBody resBig = bigBody := by
  have hmem : ∀ c ∈ bigBody, c = 'a' := fun c hc => List.eq_of_mem_replicate hc
  have hstrip : pyStrip bigBody = bigBody :=
    pyStrip_of_no_ws _ fun c hc => by rw [hmem c hc]; decide
  have hplain : clean_text bigBody = bigBody :=
    clean_text_plain _ fun c hc => by rw [hmem c hc]; refine ⟨by decide, by decide, by decide⟩
  show clean_text (pyStrip (PVal.joinIfList (PVal.str bigBody))) = bigBody
  rw [show PVal.joinIfList (PVal.str bigBody) = bigBody from rfl, hstrip, hplain]

/-!
## C4 — body over the per-block limit (corrected)

The spec requires a body exceeding the 2000-character block limit to be
chunked into multiple ordered blocks with nothing dropped.  The source
instead truncates: one paragraph holding the first 1950 characters plus
`...`, so everything beyond character 1950 is absent from the page body.
-/

theorem singleParaTexts_append (a b : List Block) :
    singleParaTexts (a ++ b) = singleParaTexts a ++ singleParaTexts b := by
  simp [singleParaTexts, List.filterMap_append]

theorem singleParaTexts_bulletSection (v : PVal) :
    singleParaTexts (bulletSection v) = [] := by
  by_cases h : pyStrip v.joinIfList = []
  · simp [bulletSection, singleParaTexts, h]
  · simp only [bulletSection, singleParaTexts, if_neg h, List.filterMap_cons,
      List.filterMap_filterMap]
    rw [List.filterMap_eq_nil_iff]
    intro b _
    by_cases hb : (clean_text b).take 2000 = [] <;> simp [hb]

/-- C4 counterexample: with a 2001-character body the built page contains
exactly one body paragraph, and the concatenation of all body paragraphs
is not the body — its tail is dropped, not chunked into further blocks. -/
theorem body_chunking_cex :
    (singleParaTexts (buildChildren resBig artSample)).length = 1 ∧
    (singleParaTexts (buildChildren resBig artSample)).flatten ≠ bigBody := by
  have hlen : bigBody.length = 2001 := by
    unfold bigBody; rw [List.length_replicate]
  have hne : bigBody ≠ [] := by
    intro h; rw [h] at hlen; simp at hlen
  have hbc : buildChildren resBig artSample =
      bulletSection (.str []) ++ bodySection bigBody ++ [linkSection bigBody artSample] := by
    simp only [buildChildren]
    rw [cleanedBody_resBig]
    rfl
  have hgt : 2000 < bigBody.length := by rw [hlen]; norm_num
  have hbs : bodySection bigBody =
      [Block.heading2 "【本文引用/翻訳】".toList,
        Block.para [(bigBody.take 1950 ++ "...".toList, none)]] := by
    simp only [bodySection]
    rw [if_neg hne, if_pos hgt]
  have hlink : linkSection bigBody artSample =
      .para [("続きを読む（Read more）→ ".toList, none),
        (artSample.title.take 50, some artSample.link)] := by
    simp only [linkSection]
    rw [if_pos ⟨hne, hgt⟩]
  have hsp : singleParaTexts (buildChildren resBig artSample) =
      [bigBody.take 1950 ++ "...".toList] := by
    rw [hbc, hbs, singleParaTexts_append, singleParaTexts_append,
      singleParaTexts_bulletSection, hlink]
    rfl
  refine ⟨by rw [hsp]; rfl, ?_⟩
  rw [hsp]
  simp only [List.flatten_cons, List.flatten_nil, List.append_nil]
  intro hcontra
  have hl := congrArg List.length hcontra
  rw [List.length_append, List.length_take, hlen,
    show ("...".toList).length = 3 from by decide] at hl
  norm_num at hl

/-- C4 amended: every successful `save_to_notion` call persists exactly
one record (and a failed one persists none); but a body longer than 2000
characters is not chunked — the page carries a single body paragraph
holding the first 1950 characters plus `...`, followed by a read-more
link to the source, and the rest of the body is dropped. -/
theorem body_truncation_amended :
    (∀ (sink : Nat → List Str → SinkResp) (props : List Str),
      ((save_to_notion sink props).ok = true → (save_to_notion sink props).persisted = 1) ∧
      ((save_to_notion sink props).ok = false → (save_to_notion sink props).persisted = 0)) ∧
    (∀ (res : GemResult) (art : ArticleData),
      2000 < (cleanedBody res).length →
      singleParaTexts (buildChildren res art) =
        [(cleanedBody res).take 1950 ++ "...".toList] ∧
      (buildChildren res art).getLast? =
        some (.para [("続きを読む（Read more）→ ".toList, none),
          (art.title.take 50, some art.link)])) := by
  constructor
  · intro sink props
    exact saveLoop_persisted sink max_retries 0 props [] []
  · intro res art hlen
    have hne : cleanedBody res ≠ [] := by
      intro h; rw [h] at hlen; simp at hlen
    have hbs : bodySection (cleanedBody res) =
        [Block.heading2 "【本文引用/翻訳】".toList,
          Block.para [((cleanedBody res).take 1950 ++ "...".toList, none)]] := by
      simp only [bodySection]
      rw [if_neg hne, if_pos hlen]
    have hlink : linkSection (cleanedBody res) art =
        .para [("続きを読む（Read more）→ ".toList, none),
          (art.title.take 50, some art.link)] := by
      simp only [linkSection]
      rw [if_pos ⟨hne, hlen⟩]
    constructor
    · simp only [buildChildren]
      rw [hbs, singleParaTexts_append, singleParaTexts_append,
        singleParaTexts_bulletSection, hlink]
      rfl
    · simp only [buildChildren]
      rw [List.getLast?_concat, hlink]

/-- Witness for C4 (amended): a trivially succeeding sink persists one
record; the oversized sample body yields the truncated single paragraph. -/
theorem body_truncation_amended_witness :
    (save_to_notion (fun _ _ => .ok) []).persisted = 1 ∧
    singleParaTexts (buildChildren resBig artSample) =
      [(cleanedBody resBig).take 1950 ++ "...".toList] :=
  ⟨(body_truncation_amended.1 (fun _ _ => .ok) []).1 (by decide),
    (body_truncation_amended.2 resBig artSample
      (by rw [cleanedBody_resBig]; unfold bigBody; rw [List.length_replicate]; norm_num)).1⟩

/-!
## C2 — dedup queries the store per candidate, on the raw link (corrected)

The spec's policy — fetch the full known-identity key set once per run and
match link OR resolved URL against it — is not what the source does:
`is_duplicate` runs an equality-filtered query against the store for every
candidate, and only ever receives the candidate's pre-resolution link
(`data["link"]`); no resolved URL exists at that point (the page is
fetched two stages later).
-/

/-- C2 counterexample: a two-candidate run issues two destination-store
dedup queries, not the single per-run fetch the claim requires. -/
theorem per_run_snapshot_cex :
    countDedupQueries (runEntries (baseEnv fun _ => dedupFresh) 0 15 [entryA, entryB] 0).1 = 2 ∧
    countDedupQueries (runEntries (baseEnv fun _ => dedupFresh) 0 15 [entryA, entryB] 0).1 ≠ 1 := by
  constructor <;> decide

/-- C2 amended: the dedup filter queries the store once per candidate that
reaches it (not once per run), the query is keyed on the candidate's
pre-resolution link, it is the candidate's first external interaction —
so no resolved URL can inform it — and a reported match ends the
candidate's processing with that single query. -/
theorem per_candidate_query_amended (env : Env) (now : Int) (e : Entry)
    (htitle : pyStrip (e.title.getD []) ≠ []) (hlink : pyStrip (e.link.getD []) ≠ [])
    (hrecent : e.published = none ∨ ∃ t, e.published = some t ∧ ¬ t < now - daySeconds) :
    countDedupQueries (processEntry env now e).trace = 1 ∧
    (processEntry env now e).trace.head? =
      some (.dedupQuery (pyStrip (e.link.getD []))) ∧
    (is_duplicate env.urlColPresent (env.dedup (pyStrip (e.link.getD []))) = true →
      (processEntry env now e).trace = [.dedupQuery (pyStrip (e.link.getD []))]) := by
  have h1 : ¬ (pyStrip (e.title.getD []) = [] ∨ pyStrip (e.link.getD []) = []) := by tauto
  have hdate : ∃ d, processEntry env now e = processEntryBody env e d := by
    rcases hrecent with hp | ⟨t, hp, hnot⟩
    · exact ⟨now, by unfold processEntry; rw [hp]; simp [h1]⟩
    · exact ⟨t, by unfold processEntry; rw [hp]; simp [h1, hnot]⟩
  obtain ⟨d, hd⟩ := hdate
  rw [hd]
  unfold processEntryBody
  by_cases hdup : is_duplicate env.urlColPresent (env.dedup (pyStrip (e.link.getD []))) = true
  · simp [hdup, countDedupQueries]
  · by_cases hr :
      env.relevant
        { title := pyStrip (e.title.getD []), link := pyStrip (e.link.getD []),
          summary := clean_text (e.summary.getD (e.description.getD [])), date := d } = true
    · cases hc :
        env.classifyResult
          { title := pyStrip (e.title.getD []), link := pyStrip (e.link.getD []),
            summary := clean_text (e.summary.getD (e.description.getD [])), date := d }
          (env.pageText (pyStrip (e.link.getD []))) <;>
        simp [hdup, hr, hc, countDedupQueries]
    · simp [hdup, hr, countDedupQueries]

/-- Witness for C2 (amended) on a concrete fresh entry. -/
theorem per_candidate_query_amended_witness :
    countDedupQueries (processEntry (baseEnv fun _ => dedupFresh) 0 entryA).trace = 1 ∧
    (processEntry (baseEnv fun _ => dedupFresh) 0 entryA).trace.head? =
      some (.dedupQuery (pyStrip (entryA.link.getD []))) ∧
    (is_duplicate (baseEnv fun _ => dedupFresh).urlColPresent
        ((baseEnv fun _ => dedupFresh).dedup (pyStrip (entryA.link.getD []))) = true →
      (processEntry (baseEnv fun _ => dedupFresh) 0 entryA).trace =
        [.dedupQuery (pyStrip (entryA.link.getD []))]) :=
  per_candidate_query_amended (baseEnv fun _ => dedupFresh) 0 entryA
    (by decide) (by decide) (Or.inl rfl)

/-!
## C5 — code-fence stripping and the JSON-failure fallback
-/

theorem isPrefixOf_append_self (l r : Str) : l.isPrefixOf (l ++ r) = true := by
  induction l with
  | nil => simp
  | cons a as ih => simp [List.isPrefixOf_cons₂, ih]

theorem dropWhile_append_of_all (p : Char → Bool) (l1 l2 : Str)
    (h : ∀ c ∈ l1, p c = true) : (l1 ++ l2).dropWhile p = l2.dropWhile p := by
  induction l1 with
  | nil => rfl
  | cons a as ih =>
    simp only [List.cons_append, List.dropWhile_cons, h a (by simp)]
    exact ih fun c hc => h c (by simp [hc])

theorem stripLeadingFence_fenceWrap (lang s : Str) (hl : ∀ c ∈ lang, c.isLower = true) :
    stripLeadingFence (fenceWrap lang s) = s ++ '\n' :: "```".toList := by
  have hw : fenceWrap lang s =
      "```".toList ++ (lang ++ (('\n' :: s) ++ ('\n' :: "```".toList))) := by
    simp [fenceWrap, List.append_assoc]
  unfold stripLeadingFence
  rw [hw, if_pos (isPrefixOf_append_self _ _),
    show (3 : Nat) = ("```".toList).length from rfl, List.drop_left,
    dropWhile_append_of_all _ _ _ hl, List.cons_append, List.dropWhile_cons]
  rfl

theorem stripTrailingFence_concat (s : Str) :
    stripTrailingFence (s ++ '\n' :: "```".toList) = s := by
  unfold stripTrailingFence
  have hrev : (s ++ '\n' :: "```".toList).reverse =
      "```".toList ++ ('\n' :: s.reverse) := by
    rw [List.reverse_append,
      show ('\n' :: "```".toList).reverse = "```".toList ++ ['\n'] from by decide,
      List.append_assoc]
    rfl
  rw [hrev, if_pos (isPrefixOf_append_self _ _),
    show (3 : Nat) = ("```".toList).length from rfl, List.drop_left]
  exact List.reverse_reverse s

theorem stripLeadingFence_of_head_ne (xs : Str) (a : Char) (h : xs.head? = some a)
    (hne : a ≠ Char.ofNat 96) : stripLeadingFence xs = xs := by
  unfold stripLeadingFence
  rw [isPrefixOf_eq_false_of_head_ne ("```".toList) xs (Char.ofNat 96) a (by decide) h
      fun e => hne e.symm]
  simp

theorem stripTrailingFence_of_last_ne (xs : Str) (b : Char) (h : xs.getLast? = some b)
    (hne : b ≠ Char.ofNat 96) : stripTrailingFence xs = xs := by
  unfold stripTrailingFence
  rw [isPrefixOf_eq_false_of_head_ne ("```".toList) xs.reverse (Char.ofNat 96) b (by decide)
      (by rw [List.head?_reverse]; exact h) fun e => hne e.symm]
  simp

theorem fenceWrap_head (lang s : Str) : (fenceWrap lang s).head? = some (Char.ofNat 96) := rfl

theorem fenceWrap_getLast (lang s : Str) :
    (fenceWrap lang s).getLast? = some (Char.ofNat 96) := by
  have e1 : fenceWrap lang s =
      ("```".toList ++ lang ++ '\n' :: s) ++ ('\n' :: "```".toList) := by
    simp [fenceWrap]
  rw [e1, List.getLast?_append,
    show ('\n' :: "```".toList).getLast? = some (Char.ofNat 96) from by decide]
  rfl

/-- C5: `analyze_article_with_gemini` strips code fences before JSON
parsing — a response wrapping a JSON object (any text with non-whitespace,
non-backtick first and last characters) in fences parses to the very same
result as the bare text; and any response that still fails JSON parsing
after stripping yields a non-`None` fallback with empty tag fields and
the cleaned raw text (capped at 2000) as `full_body`. -/
theorem fence_strip_and_fallback :
    (∀ (parse : Str → ParseOutcome) (r : GemResult) (s lang summary ptext : Str)
      (a b : Char),
      (∀ c ∈ lang, c.isLower = true) →
      s.head? = some a → a.isWhitespace = false → a ≠ Char.ofNat 96 →
      s.getLast? = some b → b.isWhitespace = false → b ≠ Char.ofNat 96 →
      parse s = .ok r →
      (clean_text (if ptext ≠ [] ∧ 200 ≤ ptext.length then ptext else summary)).take 5000 ≠ [] →
      analyze_article_with_gemini parse (.text (fenceWrap lang s)) summary ptext
          = some (cleanFields r) ∧
        analyze_article_with_gemini parse (.text s) summary ptext = some (cleanFields r)) ∧
    (∀ (parse : Str → ParseOutcome) (t summary ptext : Str),
      (clean_text (if ptext ≠ [] ∧ 200 ≤ ptext.length then ptext else summary)).take 5000 ≠ [] →
      parse (stripTrailingFence (stripLeadingFence (pyStrip t))) = .jsonError →
      analyze_article_with_gemini parse (.text t) summary ptext
          = some (jsonFailFallback (stripTrailingFence (stripLeadingFence (pyStrip t)))) ∧
        (jsonFailFallback (stripTrailingFence (stripLeadingFence (pyStrip t)))).brand
            = some (.str []) ∧
        (jsonFailFallback (stripTrailingFence (stripLeadingFence (pyStrip t)))).segment
            = some (.str []) ∧
        (jsonFailFallback (stripTrailingFence (stripLeadingFence (pyStrip t)))).region
            = some (.str []) ∧
        (jsonFailFallback (stripTrailingFence (stripLeadingFence (pyStrip t)))).full_body
            = some (.str ((clean_text
                (stripTrailingFence (stripLeadingFence (pyStrip t)))).take 2000))) := by
  constructor
  · intro parse r s lang summary ptext a b hlang hha hwa hba hhb hwb hbb hparse hraw
    have hsw : pyStrip (fenceWrap lang s) = fenceWrap lang s :=
      pyStrip_noop _ (Char.ofNat 96) (Char.ofNat 96) (fenceWrap_head lang s) (by decide)
        (fenceWrap_getLast lang s) (by decide)
    have hss : pyStrip s = s := pyStrip_noop s a b hha hwa hhb hwb
    constructor
    · simp only [analyze_article_with_gemini]
      rw [if_neg hraw, hsw, stripLeadingFence_fenceWrap lang s hlang,
        stripTrailingFence_concat, hparse]
    · simp only [analyze_article_with_gemini]
      rw [if_neg hraw, hss, stripLeadingFence_of_head_ne s a hha hba,
        stripTrailingFence_of_last_ne s b hhb hbb, hparse]
  · intro parse t summary ptext hraw hparse
    refine ⟨?_, rfl, rfl, rfl, rfl⟩
    simp only [analyze_article_with_gemini]
    rw [if_neg hraw, hparse]

/-- Witness for C5: a concrete parser, a fenced JSON object, and a
non-JSON response. -/
theorem fence_strip_and_fallback_witness :
    analyze_article_with_gemini
        (fun s => if s = "\x7b\x22a\x22: 1\x7d".toList then .ok {} else .jsonError)
        (.text (fenceWrap "json".toList "\x7b\x22a\x22: 1\x7d".toList))
        "hello".toList [] = some (cleanFields {}) ∧
    analyze_article_with_gemini
        (fun s => if s = "\x7b\x22a\x22: 1\x7d".toList then .ok {} else .jsonError)
        (.text "not json".toList) "hello".toList []
      = some (jsonFailFallback (stripTrailingFence (stripLeadingFence
          (pyStrip "not json".toList)))) :=
  ⟨(fence_strip_and_fallback.1
      (fun s => if s = "\x7b\x22a\x22: 1\x7d".toList then .ok {} else .jsonError) {}
      "\x7b\x22a\x22: 1\x7d".toList "json".toList "hello".toList []
      (Char.ofNat 123) (Char.ofNat 125) (by decide) (by decide) (by decide) (by decide)
      (by decide) (by decide) (by decide) (by decide) (by decide)).1,
    (fence_strip_and_fallback.2
      (fun s => if s = "\x7b\x22a\x22: 1\x7d".toList then .ok {} else .jsonError)
      "not json".toList "hello".toList [] (by decide) (by decide)).1⟩

/-!
## C7 — tag normalization round-trip (corrected)

`clean_multi_select` is not idempotent in the claim's sense: a single tag
whose text lowercases to one of the blocked values (`none`, `不明`,
`other`) survives a first pass that saw extra whitespace, but is erased by
the second pass.  For every other shape of output the round trip is the
identity, proved below.
-/

theorem head?_dropWhile_false (p : Char → Bool) (l : Str) (c : Char)
    (h : (l.dropWhile p).head? = some c) : p c = false := by
  have hx := List.head?_dropWhile_not p l
  rw [h] at hx
  exact hx

theorem getLast?_of_suffix {l1 l2 : Str} (h : l1 <:+ l2) (hne : l1 ≠ []) :
    l2.getLast? = l1.getLast? := by
  obtain ⟨t, rfl⟩ := h
  rw [List.getLast?_append]
  cases hl : l1.getLast? with
  | none => exact absurd (List.getLast?_eq_none_iff.mp hl) hne
  | some x => rfl

theorem pyStrip_idem (xs : Str) : pyStrip (pyStrip xs) = pyStrip xs := by
  by_cases h : pyStrip xs = []
  · rw [h]; rfl
  · have hw : (dropLeadWs xs).reverse.dropWhile Char.isWhitespace ≠ [] := by
      intro hx
      exact h (by unfold pyStrip; rw [hx]; rfl)
    obtain ⟨c, hc⟩ := Option.isSome_iff_exists.mp (by
      rw [List.head?_isSome]; exact hw)
    have hcw : c.isWhitespace = false := head?_dropWhile_false _ _ c hc
    have hglr : (pyStrip xs).getLast? = some c := by
      unfold pyStrip
      rw [List.getLast?_reverse]
      exact hc
    obtain ⟨d, hd⟩ := Option.isSome_iff_exists.mp (by
      rw [List.head?_isSome]; exact h)
    have hhead : (pyStrip xs).head? = some d := hd
    have hdw : d.isWhitespace = false := by
      have h1 : (pyStrip xs).head? =
          ((dropLeadWs xs).reverse.dropWhile Char.isWhitespace).getLast? := by
        unfold pyStrip
        rw [List.head?_reverse]
      have h2 : ((dropLeadWs xs).reverse.dropWhile Char.isWhitespace).getLast? =
          (dropLeadWs xs).reverse.getLast? :=
        (getLast?_of_suffix (List.dropWhile_suffix _) hw).symm
      have h3 : (dropLeadWs xs).reverse.getLast? = (dropLeadWs xs).head? :=
        List.getLast?_reverse _
      have h4 : (dropLeadWs xs).head? = some d := by
        rw [← h3, ← h2, ← h1, hd]
      exact head?_dropWhile_false _ _ d h4
    exact pyStrip_noop _ d c hhead hdw hglr hcw

theorem mem_pyStrip {c : Char} {xs : Str} (h : c ∈ pyStrip xs) : c ∈ xs := by
  unfold pyStrip dropLeadWs at h
  rw [List.mem_reverse] at h
  have h2 := (List.dropWhile_sublist _).mem h
  rw [List.mem_reverse] at h2
  exact (List.dropWhile_sublist _).mem h2

theorem splitOnChar_ne_nil (sep : Char) (xs : Str) : splitOnChar sep xs ≠ [] := by
  induction xs with
  | nil => simp [splitOnChar]
  | cons c rest ih =>
    by_cases h : c = sep
    · simp [splitOnChar, h]
    · simp only [splitOnChar, if_neg h]
      cases hs : splitOnChar sep rest with
      | nil => exact absurd hs ih
      | cons s ss => simp

theorem splitOnChar_pieces (sep : Char) (xs : Str) :
    ∀ p ∈ splitOnChar sep xs, sep ∉ p ∧ ∀ c ∈ p, c ∈ xs := by
  induction xs with
  | nil =>
    intro p hp
    simp only [splitOnChar, List.mem_singleton] at hp
    subst hp
    simp
  | cons a rest ih =>
    intro p hp
    by_cases h : a = sep
    · simp only [splitOnChar, if_pos h, List.mem_cons] at hp
      rcases hp with rfl | hp2
      · simp
      · obtain ⟨h1, h2⟩ := ih p hp2
        exact ⟨h1, fun c hc => List.mem_cons_of_mem _ (h2 c hc)⟩
    · cases hs : splitOnChar sep rest with
      | nil => exact absurd hs (splitOnChar_ne_nil sep rest)
      | cons s ss =>
        simp only [splitOnChar, if_neg h, hs, List.mem_cons] at hp
        rcases hp with rfl | hp2
        · constructor
          · intro hmem
            rcases List.mem_cons.mp hmem with he | hmem2
            · exact h he.symm
            · exact (ih s (by rw [hs]; exact List.mem_cons_self ..)).1 hmem2
          · intro c hc
            rcases List.mem_cons.mp hc with rfl | hc2
            · exact List.mem_cons_self ..
            · exact List.mem_cons_of_mem _
                ((ih s (by rw [hs]; exact List.mem_cons_self ..)).2 c hc2)
        · obtain ⟨h1, h2⟩ := ih p (by rw [hs]; exact List.mem_cons_of_mem _ hp2)
          exact ⟨h1, fun c hc => List.mem_cons_of_mem _ (h2 c hc)⟩

theorem splitOnChar_of_not_mem (sep : Char) (xs : Str) (h : sep ∉ xs) :
    splitOnChar sep xs = [xs] := by
  induction xs with
  | nil => rfl
  | cons c rest ih =>
    have hc : ¬ c = sep := fun e => h (List.mem_cons.mpr (Or.inl e.symm))
    simp only [splitOnChar, if_neg hc,
      ih fun hm => h (List.mem_cons_of_mem _ hm)]

theorem splitOnChar_append (sep : Char) (xs ys : Str) (h : sep ∉ xs) :
    splitOnChar sep (xs ++ sep :: ys) = xs :: splitOnChar sep ys := by
  induction xs with
  | nil => simp [splitOnChar]
  | cons c rest ih =>
    have hc : ¬ c = sep := fun e => h (List.mem_cons.mpr (Or.inl e.symm))
    have ih2 : splitOnChar sep (rest.append (sep :: ys)) = rest :: splitOnChar sep ys :=
      ih fun hm => h (List.mem_cons_of_mem _ hm)
    simp only [List.cons_append, splitOnChar, if_neg hc, ih2]

theorem splitOnChar_joinWith (sep : Char) :
    ∀ (L : List Str), L ≠ [] → (∀ l ∈ L, sep ∉ l) →
      splitOnChar sep (joinWith sep L) = L := by
  intro L
  induction L with
  | nil => intro h; exact absurd rfl h
  | cons x xs ih =>
    intro _ hall
    cases xs with
    | nil =>
      simp only [joinWith]
      exact splitOnChar_of_not_mem sep x (hall x (by simp))
    | cons y rest =>
      simp only [joinWith]
      rw [splitOnChar_append sep x _ (hall x (by simp)),
        ih (by simp) fun l hl => hall l (List.mem_cons_of_mem _ hl)]

theorem mem_joinWith (sep : Char) :
    ∀ (L : List Str) (c : Char), c ∈ joinWith sep L → c = sep ∨ ∃ l ∈ L, c ∈ l := by
  intro L
  induction L with
  | nil => simp [joinWith]
  | cons x xs ih =>
    cases xs with
    | nil =>
      intro c hc
      right
      exact ⟨x, by simp, by simpa [joinWith] using hc⟩
    | cons y rest =>
      intro c hc
      simp only [joinWith] at hc
      rcases List.mem_append.mp hc with h | h
      · exact Or.inr ⟨x, by simp, h⟩
      · rcases List.mem_cons.mp h with rfl | h2
        · exact Or.inl rfl
        · rcases ih c h2 with h3 | ⟨l, hl, hcl⟩
          · exact Or.inl h3
          · exact Or.inr ⟨l, List.mem_cons_of_mem _ hl, hcl⟩

theorem clean_multi_select_elem (val : Str) :
    ∀ p ∈ clean_multi_select val,
      p ≠ [] ∧ pyStrip p = p ∧ ',' ∉ p ∧ '、' ∉ p := by
  intro p hp
  unfold clean_multi_select at hp
  by_cases hb : val = [] ∨ pyLower val ∈ blockedVals
  · rw [if_pos hb] at hp
    simp at hp
  · rw [if_neg hb, List.mem_filter] at hp
    obtain ⟨hmem, hne⟩ := hp
    rw [List.mem_map] at hmem
    obtain ⟨q, hq, rfl⟩ := hmem
    refine ⟨by simpa using hne, pyStrip_idem q, ?_, ?_⟩
    · intro hcm
      exact (splitOnChar_pieces ',' _ q hq).1 (mem_pyStrip hcm)
    · intro hdm
      have hx := (splitOnChar_pieces ',' _ q hq).2 '、' (mem_pyStrip hdm)
      rw [List.mem_map] at hx
      obtain ⟨c, _, hc⟩ := hx
      by_cases h2 : c = '、'
      · rw [if_pos h2] at hc
        exact absurd hc (by decide)
      · rw [if_neg h2] at hc
        exact h2 hc

/-- C7 counterexample: on `" none"` the first pass yields the single tag
`"none"`, but re-normalizing the comma-joined tag list yields `[]`, so
normalization is not idempotent as claimed. -/
theorem tag_normalization_cex :
    clean_multi_select (joinWith ',' (clean_multi_select " none".toList)) ≠
      clean_multi_select " none".toList := by decide

/-- C7 amended: the round trip (normalize, join tag names with a comma,
normalize again) is the identity for every input whose first-pass tag list
is not a single tag that lowercases to a blocked value (`none`, `不明`,
`other`). -/
theorem tag_normalization_amended (val : Str)
    (h : ∀ t, clean_multi_select val = [t] → pyLower t ∉ blockedVals) :
    clean_multi_select (joinWith ',' (clean_multi_select val)) =
      clean_multi_select val := by
  have helem := clean_multi_select_elem val
  cases hL : clean_multi_select val with
  | nil => decide
  | cons a as =>
    cases as with
    | nil =>
      obtain ⟨hne, hstr, hnc, hnd⟩ := helem a (by rw [hL]; exact List.mem_cons_self ..)
      have hblocked : pyLower a ∉ blockedVals := h a hL
      have hj : joinWith ',' [a] = a := by simp [joinWith]
      rw [hj]
      unfold clean_multi_select
      rw [if_neg (by push_neg; exact ⟨hne, hblocked⟩)]
      have hmap : a.map (fun c => if c = '、' then ',' else c) = a := by
        rw [List.map_congr_left (g := id) fun c hc => by
          simp only [id]
          exact if_neg fun e : c = '、' => hnd (e ▸ hc)]
        exact List.map_id a
      rw [hmap, splitOnChar_of_not_mem ',' a hnc]
      simp [hstr, hne]
    | cons b rest =>
      have hallmem : ∀ l ∈ a :: b :: rest, l ≠ [] ∧ pyStrip l = l ∧ ',' ∉ l ∧ '、' ∉ l :=
        fun l hl => helem l (by rw [hL]; exact hl)
      have hjoin_comma : ',' ∈ joinWith ',' (a :: b :: rest) := by
        simp only [joinWith]
        exact List.mem_append.mpr (Or.inr (List.mem_cons_self ..))
      have hjoin_ne : joinWith ',' (a :: b :: rest) ≠ [] := by
        intro hj
        rw [hj] at hjoin_comma
        exact List.not_mem_nil _ hjoin_comma
      have hnd_join : '、' ∉ joinWith ',' (a :: b :: rest) := by
        intro hd
        rcases mem_joinWith ',' _ '、' hd with he | ⟨l, hl, hcl⟩
        · exact absurd he (by decide)
        · exact (hallmem l hl).2.2.2 hcl
      have hlower : pyLower (joinWith ',' (a :: b :: rest)) ∉ blockedVals := by
        intro hmem
        have hcl : ',' ∈ pyLower (joinWith ',' (a :: b :: rest)) := by
          unfold pyLower
          exact List.mem_map.mpr ⟨',', hjoin_comma, by decide⟩
        simp only [blockedVals, List.mem_cons, List.not_mem_nil, or_false] at hmem
        rcases hmem with h1 | h1 | h1 | h1 <;> rw [h1] at hcl
        · exact absurd hcl (by decide)
        · exact absurd hcl (by decide)
        · exact absurd hcl (by decide)
        · exact List.not_mem_nil _ hcl
      unfold clean_multi_select
      rw [if_neg (by push_neg; exact ⟨hjoin_ne, hlower⟩)]
      have hmap : (joinWith ',' (a :: b :: rest)).map
          (fun c => if c = '、' then ',' else c) = joinWith ',' (a :: b :: rest) := by
        rw [List.map_congr_left (g := id) fun c hc => by
          simp only [id]
          exact if_neg fun e : c = '、' => hnd_join (e ▸ hc)]
        exact List.map_id _
      rw [hmap,
        splitOnChar_joinWith ',' (a :: b :: rest) (by simp)
          (fun l hl => (hallmem l hl).2.2.1),
        List.map_congr_left (g := id) fun l hl => by
          simp only [id]; exact (hallmem l hl).2.1,
        List.map_id,
        List.filter_eq_self.mpr fun l hl => by
          simpa using (hallmem l hl).1]

/-- Witness for C7 (amended) at a two-tag input. -/
theorem tag_normalization_amended_witness :
    clean_multi_select (joinWith ',' (clean_multi_select "Komatsu, Caterpillar".toList)) =
      clean_multi_select "Komatsu, Caterpillar".toList :=
  tag_normalization_amended "Komatsu, Caterpillar".toList (by
    intro t ht
    rw [show clean_multi_select "Komatsu, Caterpillar".toList =
        ["Komatsu".toList, "Caterpillar".toList] from by decide] at ht
    exact absurd ht (by simp))

/-!
## C8 — extraction tiers of `get_page_text`
-/

theorem strategyTwo_length (mainFind : Option Container) :
    ∀ (os : List (Option Container)) (t : Str),
      strategyTwo mainFind os = some t → 200 < t.length := by
  intro os
  induction os with
  | nil => intro t ht; simp [strategyTwo] at ht
  | cons o rest ih =>
    intro t ht
    unfold strategyTwo at ht
    cases ho : o.orElse fun _ => mainFind with
    | none =>
      rw [ho] at ht
      exact ih t ht
    | some c =>
      rw [ho] at ht
      have ht2 : (if 200 < (extract_paragraphs c).length then some (extract_paragraphs c)
          else strategyTwo mainFind rest) = some t := ht
      by_cases hl : 200 < (extract_paragraphs c).length
      · rw [if_pos hl] at ht2
        cases ht2
        exact hl
      · rw [if_neg hl] at ht2
        exact ih t ht2

/-- C8: the extraction cascade tries `<article>` paragraphs, then the
main-content selectors, then all page paragraphs, then flattened page
text; each later tier runs only when every earlier tier produced at most
200 characters (the tier-2 winner itself always exceeds 200), and every
tier's result is truncated to at most 10000 characters. -/
theorem page_extraction_tiers :
    (∀ pg : Page, (get_page_text pg).length ≤ 10000) ∧
    (∀ (pg : Page) (a : Container), pg.article = some a →
      200 < (extract_paragraphs a).length →
      get_page_text pg = (extract_paragraphs a).take 10000) ∧
    (∀ (pg : Page) (t : Str),
      (∀ a, pg.article = some a → (extract_paragraphs a).length ≤ 200) →
      strategyTwo pg.mainFind pg.selFinds = some t →
      get_page_text pg = t.take 10000 ∧ 200 < t.length) ∧
    (∀ pg : Page,
      (∀ a, pg.article = some a → (extract_paragraphs a).length ≤ 200) →
      strategyTwo pg.mainFind pg.selFinds = none →
      200 < (extract_paragraphs ⟨pg.allParas⟩).length →
      get_page_text pg = (extract_paragraphs ⟨pg.allParas⟩).take 10000) ∧
    (∀ pg : Page,
      (∀ a, pg.article = some a → (extract_paragraphs a).length ≤ 200) →
      strategyTwo pg.mainFind pg.selFinds = none →
      (extract_paragraphs ⟨pg.allParas⟩).length ≤ 200 →
      get_page_text pg = (joinWith ' ' pg.fullTextWords).take 10000) := by
  have htier1 : ∀ pg : Page,
      (∀ a, pg.article = some a → (extract_paragraphs a).length ≤ 200) →
      (match pg.article with
        | some a =>
          if 200 < (extract_paragraphs a).length then some (extract_paragraphs a) else none
        | none => (none : Option Str)) = none := by
    intro pg hsmall
    cases ha : pg.article with
    | none => rfl
    | some a =>
      have := hsmall a ha
      simp only [if_neg (by omega : ¬ 200 < (extract_paragraphs a).length)]
  refine ⟨?_, ?_, ?_, ?_, ?_⟩
  · intro pg
    unfold get_page_text
    cases ha : pg.article with
    | some a =>
      by_cases hl : 200 < (extract_paragraphs a).length
      · simp only [if_pos hl]
        exact (List.length_take_le _ _)
      · simp only [if_neg hl]
        cases hs : strategyTwo pg.mainFind pg.selFinds with
        | some t => exact List.length_take_le _ _
        | none =>
          by_cases h3 : 200 < (extract_paragraphs ⟨pg.allParas⟩).length
          · simp only [if_pos h3]
            exact List.length_take_le _ _
          · simp only [if_neg h3]
            exact List.length_take_le _ _
    | none =>
      cases hs : strategyTwo pg.mainFind pg.selFinds with
      | some t => exact List.length_take_le _ _
      | none =>
        by_cases h3 : 200 < (extract_paragraphs ⟨pg.allParas⟩).length
        · simp only [if_pos h3]
          exact List.length_take_le _ _
        · simp only [if_neg h3]
          exact List.length_take_le _ _
  · intro pg a ha hl
    unfold get_page_text
    rw [ha]
    simp only [if_pos hl]
  · intro pg t hsmall hs
    refine ⟨?_, strategyTwo_length pg.mainFind pg.selFinds t hs⟩
    unfold get_page_text
    rw [htier1 pg hsmall, hs]
  · intro pg hsmall hs h3
    unfold get_page_text
    rw [htier1 pg hsmall, hs]
    simp only [if_pos h3]
  · intro pg hsmall hs h3
    unfold get_page_text
    rw [htier1 pg hsmall, hs]
    simp only [if_neg (by omega : ¬ 200 < (extract_paragraphs ⟨pg.allParas⟩).length)]

set_option maxRecDepth 10000 in
/-- Witness for C8 at concrete pages exercising tiers 1, 2, 3 and 4. -/
theorem page_extraction_tiers_witness :
    get_page_text
        { article := some ⟨[List.replicate 31 'x', List.replicate 201 'y']⟩,
          selFinds := [], mainFind := none, allParas := [], fullTextWords := [] } =
      (extract_paragraphs ⟨[List.replicate 31 'x', List.replicate 201 'y']⟩).take 10000 ∧
    get_page_text
        { article := none, selFinds := [some ⟨[List.replicate 231 'z']⟩],
          mainFind := none, allParas := [], fullTextWords := [] } =
      (List.replicate 231 'z').take 10000 ∧
    get_page_text
        { article := none, selFinds := [], mainFind := none,
          allParas := [List.replicate 231 'w'], fullTextWords := [] } =
      (extract_paragraphs ⟨[List.replicate 231 'w']⟩).take 10000 ∧
    get_page_text
        { article := none, selFinds := [], mainFind := none, allParas := [],
          fullTextWords := ["short".toList] } =
      (joinWith ' ' ["short".toList]).take 10000 :=
  ⟨page_extraction_tiers.2.1
      { article := some ⟨[List.replicate 31 'x', List.replicate 201 'y']⟩,
        selFinds := [], mainFind := none, allParas := [], fullTextWords := [] }
      ⟨[List.replicate 31 'x', List.replicate 201 'y']⟩ rfl (by decide),
    (page_extraction_tiers.2.2.1
      { article := none, selFinds := [some ⟨[List.replicate 231 'z']⟩],
        mainFind := none, allParas := [], fullTextWords := [] }
      (List.replicate 231 'z') (by intro a ha; cases ha) (by decide)).1,
    page_extraction_tiers.2.2.2.1
      { article := none, selFinds := [], mainFind := none,
        allParas := [List.replicate 231 'w'], fullTextWords := [] }
      (by intro a ha; cases ha) (by decide) (by decide),
    page_extraction_tiers.2.2.2.2
      { article := none, selFinds := [], mainFind := none, allParas := [],
        fullTextWords := ["short".toList] }
      (by intro a ha; cases ha) (by decide) (by decide)⟩

end Kenki
